import Mathlib

/-!
Verification of the dnaio core FASTQ parser and record codec
(`src/dnaio/_core.pyx`) against its natural-language specification.

We shallowly embed the Cython code over byte lists (`List Nat`, one `Nat`
per byte).  Byte constants used throughout: `64 = '@'`, `10 = '\n'`,
`13 = '\r'`, `43 = '+'`, `32 = ' '`, `9 = '\t'`, `0 = NUL`.
-/

set_option autoImplicit false

namespace Dnaio

/-! ### Basic byte-buffer helpers -/

/-- Number of newline bytes in a byte list (Python `.count(b'\n')`). -/
def countNl (l : List Nat) : Nat := l.count 10

/-- Python-style slice `l[start : start+len]` (clamped at the end of `l`). -/
def sliceL (l : List Nat) (start len : Nat) : List Nat :=
  (l.drop start).take len

/-- Embedding of the C helper `string_is_ascii(buf + start, len)`
(`ascii_check.h`): every byte in the range is `< 128`. -/
def string_is_ascii (buf : List Nat) (start len : Nat) : Bool :=
  (sliceL buf start len).all (fun b => b < 128)

/-- Scanning loop of `memchr`, structurally recursive on the number of
bytes left to scan. -/
def memchrNlAux (buf : List Nat) (start : Nat) : Nat → Option Nat
  | 0 => none
  | left + 1 =>
    if buf.getD start 0 = 10 then some start
    else memchrNlAux buf (start + 1) left

/-- Embedding of `memchr(buf + start, '\n', stop - start)`: index of the
first newline byte in `buf[start..stop)`, if any.  Reads are modelled with
`List.getD` (out-of-range reads yield `0`, which never equals `10`; the
parser only calls this with `stop ≤ buf.length`). -/
def memchrNl (buf : List Nat) (start stop : Nat) : Option Nat :=
  memchrNlAux buf start (stop - start)

/-! ### FASTQ serializer (`create_fastq_record`, _core.pyx lines 296-330) -/

/-- One-byte store `retval_ptr[i] = b` into a byte buffer. -/
def setByte (buf : List Nat) (i : Nat) (b : Nat) : List Nat := buf.set i b

/-- `memcpy(retval_ptr + pos, src, src.length)` into a byte buffer. -/
def writeMem (buf : List Nat) (pos : Nat) (src : List Nat) : List Nat :=
  buf.take pos ++ src ++ buf.drop (pos + src.length)

/-- Embedding of `create_fastq_record` (_core.pyx lines 296-330): allocate
`total_size` bytes and fill them with the exact sequence of byte stores and
`memcpy` calls of the source, tracking the source's cursor arithmetic. -/
def create_fastq_record (name sequence qualities : List Nat)
    (two_headers : Bool) : List Nat :=
  let name_length := name.length
  let sequence_length := sequence.length
  let qualities_length := qualities.length
  let total_size0 := name_length + sequence_length + qualities_length + 6
  let total_size := if two_headers then total_size0 + name_length else total_size0
  let retval0 := List.replicate total_size 0
  let retval1 := setByte retval0 0 64
  let retval2 := writeMem retval1 1 name
  let cursor1 := name_length + 1
  let retval3 := setByte retval2 cursor1 10
  let cursor2 := cursor1 + 1
  let retval4 := writeMem retval3 cursor2 sequence
  let cursor3 := cursor2 + sequence_length
  let retval5 := setByte retval4 cursor3 10
  let cursor4 := cursor3 + 1
  let retval6 := setByte retval5 cursor4 43
  let cursor5 := cursor4 + 1
  let retval7 := if two_headers then writeMem retval6 cursor5 name else retval6
  let cursor6 := if two_headers then cursor5 + name_length else cursor5
  let retval8 := setByte retval7 cursor6 10
  let cursor7 := cursor6 + 1
  let retval9 := writeMem retval8 cursor7 qualities
  let cursor8 := cursor7 + qualities_length
  setByte retval9 cursor8 10

/-- The FASTQ wire format of one record, as the spec describes it:
`'@' name '\n' sequence '\n' '+' (name if two_headers) '\n' qualities '\n'`. -/
def fastqWire (name sequence qualities : List Nat) (two_headers : Bool) :
    List Nat :=
  [64] ++ name ++ [10] ++ sequence ++ [10] ++ [43] ++
    (if two_headers then name else []) ++ [10] ++ qualities ++ [10]

/-! ### Paired-head synchronizer (`paired_fastq_heads`, lines 342-376) -/

/-- Scanning loop of the inner `while` of `paired_fastq_heads`,
structurally recursive on the number of bytes left before `stop`. -/
def scanNlAux (d : List Nat) (pos : Nat) : Nat → Nat
  | 0 => pos
  | left + 1 =>
    if d.getD pos 0 = 10 then pos else scanNlAux d (pos + 1) left

/-- Embedding of the inner scan
`while pos < end and data[pos] != b'\n': pos += 1` of `paired_fastq_heads`:
returns the final value of `pos`. -/
def scanNl (d : List Nat) (pos stop : Nat) : Nat :=
  scanNlAux d pos (stop - pos)

theorem scanNlAux_ge (d : List Nat) (pos left : Nat) :
    pos ≤ scanNlAux d pos left := by
  induction left generalizing pos with
  | zero => exact Nat.le_refl _
  | succ k ih =>
    unfold scanNlAux
    split
    · exact Nat.le_refl _
    · exact Nat.le_trans (Nat.le_succ _) (ih (pos + 1))

theorem scanNlAux_le (d : List Nat) (pos left : Nat) :
    scanNlAux d pos left ≤ pos + left := by
  induction left generalizing pos with
  | zero => simp [scanNlAux]
  | succ k ih =>
    unfold scanNlAux
    split
    · omega
    · have := ih (pos + 1)
      omega

theorem scanNl_ge (d : List Nat) (pos stop : Nat) : pos ≤ scanNl d pos stop :=
  scanNlAux_ge d pos (stop - pos)

theorem scanNl_le (d : List Nat) (pos stop : Nat) (h : pos ≤ stop) :
    scanNl d pos stop ≤ stop := by
  have := scanNlAux_le d pos (stop - pos)
  unfold scanNl
  omega

/-- Embedding of the outer `while True` loop of `paired_fastq_heads`.  The
third-from-last branch is unreachable from the exported entry point (both
cursors past their ends cannot happen when starting from `(0, 0)`); on it
the C loop would not terminate, and we return the recorded pair. -/
def pfhLoop (b1 b2 : List Nat) (e1 e2 pos1 pos2 lb rs1 rs2 : Nat) :
    Nat × Nat :=
  let p1 := scanNl b1 pos1 e1
  if p1 = e1 then (rs1, rs2)
  else
    let p2 := scanNl b2 pos2 e2
    if p2 = e2 then (rs1, rs2)
    else if e1 < pos1 ∧ e2 < pos2 then (rs1, rs2)
    else if lb + 1 = 4 then
      pfhLoop b1 b2 e1 e2 (p1 + 1) (p2 + 1) 0 (p1 + 1) (p2 + 1)
    else
      pfhLoop b1 b2 e1 e2 (p1 + 1) (p2 + 1) (lb + 1) rs1 rs2
termination_by (e1 + 1 - pos1) + (e2 + 1 - pos2)
decreasing_by
  all_goals
    have g1 := scanNl_ge b1 pos1 e1
    have g2 := scanNl_ge b2 pos2 e2
    rename_i h1 h2 h3 _
    by_cases hc : pos1 ≤ e1
    · have := scanNl_le b1 pos1 e1 hc
      omega
    · have hc2 : pos2 ≤ e2 := by omega
      have := scanNl_le b2 pos2 e2 hc2
      omega

/-- Embedding of `paired_fastq_heads(buf1, buf2, end1, end2)`
(_core.pyx lines 342-376). -/
def paired_fastq_heads (b1 b2 : List Nat) (e1 e2 : Nat) : Nat × Nat :=
  pfhLoop b1 b2 e1 e2 0 0 0 0 0

/-! ### Record value (`Sequence`, _core.pyx lines 33-212)

Strings are modelled as byte lists; a byte `≥ 128` models a character that
fails `PyUnicode_IS_COMPACT_ASCII`.  Python exception classes raised by the
record code are modelled by `PyErr`; `WrongType` (a `TypeError` for a
non-string argument) is enforced by the host type system here and cannot
arise in the embedding. -/

/-- Kinds of Python errors raised by the record operations:
`nonAsciiValue` and `lengthMismatchValue` and `missingQualitiesValue` are
the distinct `ValueError`s of the source, `attributeError` is the
`AttributeError` raised by calling a method on `None`, and
`unicodeEncodeError` is the error of `str.encode('ascii')` on non-ASCII. -/
inductive PyErr where
  | typeError
  | nonAsciiValue
  | lengthMismatchValue
  | missingQualitiesValue
  | attributeError
  | unicodeEncodeError
deriving DecidableEq

/-- The `Sequence` record: `name`, `sequence`, optional `qualities`. -/
structure PySequence where
  name : List Nat
  sequence : List Nat
  qualities : Option (List Nat)
deriving DecidableEq

/-- A byte string is ASCII when every byte is `< 128`
(`PyUnicode_IS_COMPACT_ASCII` on a latin-1 range string). -/
def isAsciiStr (l : List Nat) : Bool := l.all (fun b => b < 128)

/-- Embedding of `Sequence.__init__` (lines 59-78): validate name, sequence
and qualities in the order of the source. -/
def Sequence.init (name sequence : List Nat) (qualities : Option (List Nat)) :
    Except PyErr PySequence :=
  if isAsciiStr name = false then .error .nonAsciiValue
  else if isAsciiStr sequence = false then .error .nonAsciiValue
  else
    match qualities with
    | none => .ok ⟨name, sequence, none⟩
    | some q =>
      if isAsciiStr q = false then .error .nonAsciiValue
      else if q.length ≠ sequence.length then .error .lengthMismatchValue
      else .ok ⟨name, sequence, some q⟩

/-- Embedding of the `name` property setter (lines 84-90). -/
def Sequence.setNameField (r : PySequence) (v : List Nat) :
    Except PyErr PySequence :=
  if isAsciiStr v then .ok { r with name := v } else .error .nonAsciiValue

/-- Embedding of the `sequence` property setter (lines 96-102): it validates
that the replacement is an ASCII string and nothing else. -/
def Sequence.setSequenceField (r : PySequence) (v : List Nat) :
    Except PyErr PySequence :=
  if isAsciiStr v then .ok { r with sequence := v } else .error .nonAsciiValue

/-- Embedding of the `qualities` property setter (lines 108-118): `None` or
an ASCII string is accepted, nothing else is validated. -/
def Sequence.setQualitiesField (r : PySequence) (v : Option (List Nat)) :
    Except PyErr PySequence :=
  match v with
  | none => .ok { r with qualities := none }
  | some q =>
    if isAsciiStr q then .ok { r with qualities := some q }
    else .error .nonAsciiValue

/-- Length invariant of the data model: if `qualities` is present its length
equals the length of `sequence`. -/
def lenInvariantB (r : PySequence) : Bool :=
  match r.qualities with
  | none => true
  | some q => q.length == r.sequence.length

/-- Embedding of `Sequence.qualities_as_bytes` (lines 162-166): the source
is `self._qualities.encode('ascii')`, so a record without qualities raises
an `AttributeError` (`None` has no `encode`), not the dedicated
missing-qualities `ValueError`. -/
def Sequence.qualities_as_bytes (r : PySequence) : Except PyErr (List Nat) :=
  match r.qualities with
  | none => .error .attributeError
  | some q => if isAsciiStr q then .ok q else .error .unicodeEncodeError

/-- Embedding of `Sequence.fastq_bytes` (lines 168-185). -/
def Sequence.fastq_bytes (r : PySequence) (two_headers : Bool) :
    Except PyErr (List Nat) :=
  match r.qualities with
  | none => .error .missingQualitiesValue
  | some q => .ok (create_fastq_record r.name r.sequence q two_headers)

/-! ### ID matcher (`record_ids_match`, _core.pyx lines 661-687)

The C function receives NUL-terminated buffers; we model a read of byte `i`
of the C string backing `h` as `h.getD i 0` (the terminator and anything
past it read as `0`).  The C index `id2_length - 1` is a `size_t`
subtraction, modelled as arithmetic modulo `2 ^ 64`. -/

/-- Word size of `size_t` arithmetic. -/
def USIZE : Nat := 2 ^ 64

/-- Read byte `i` of the C string backing `h` (the byte at `h.length` is the
terminating NUL; reads past it are out of bounds in C and modelled as 0). -/
def cread (h : List Nat) (i : Nat) : Nat := h.getD i 0

/-- Scanning loop of `strcspn(h, " \t")`: first index whose byte is NUL,
space or tab, structurally recursive on the remaining fuel.  The scan
always stops at the terminating NUL (`i = h.length`, where `cread` is `0`)
if no earlier byte matches, so fuel `h.length - i` suffices. -/
def strcspnAux (h : List Nat) (i : Nat) : Nat → Nat
  | 0 => i
  | fuel + 1 =>
    if cread h i = 0 ∨ cread h i = 32 ∨ cread h i = 9 then i
    else strcspnAux h (i + 1) fuel

/-- Embedding of `strcspn(header, b' \t')` on the C string `h ++ [0]`. -/
def strcspnSpaceTab (h : List Nat) : Nat := strcspnAux h 0 h.length

/-- The trailing-digit test of `record_ids_match` (lines 681-683): both
IDs end with a byte in `'1'..'3'` (bytes 49..51), read at the `size_t`
index `id2_length - 1` on both buffers. -/
def idsStripDigit (header1 header2 : List Nat) : Bool :=
  let prev := (strcspnSpaceTab header2 + (USIZE - 1)) % USIZE
  decide (49 ≤ cread header1 prev ∧ cread header1 prev ≤ 51) &&
    decide (49 ≤ cread header2 prev ∧ cread header2 prev ≤ 51)

/-- The number of bytes `memcmp` compares (line 684: `id2_length -= 1`
when both IDs end with a mate-number digit, again `size_t` arithmetic). -/
def idsCmpLen (header1 header2 : List Nat) : Nat :=
  if idsStripDigit header1 header2 then
    (strcspnSpaceTab header2 + (USIZE - 1)) % USIZE
  else strcspnSpaceTab header2

/-- Embedding of `record_ids_match(header1, header2, header1_length)`
(lines 661-687).  `memcmp` is modelled as a byte-wise comparison of the
first `idsCmpLen` bytes. -/
def record_ids_match (header1 header2 : List Nat) (header1_length : Nat) :
    Bool :=
  let id2_length := strcspnSpaceTab header2
  if header1_length < id2_length then false
  else
    let endc := cread header1 id2_length
    if endc ≠ 0 ∧ endc ≠ 32 ∧ endc ≠ 9 then false
    else
      (List.range (idsCmpLen header1 header2)).all
        (fun i => cread header1 i == cread header2 i)

/-- The sequence of byte reads `record_ids_match` performs, as
`(buffer, index)` pairs where the buffer tag `true` means `header1`.
The `strcspn` scan reads `header2` at `0..id2_length`; the end-of-ID check
reads `header1[id2_length]`; the trailing-digit check reads both buffers at
the `size_t` index `id2_length - 1`; `memcmp` reads both buffers at
`0..id2_length2 - 1`. -/
def idsMatchReads (header1 header2 : List Nat) (header1_length : Nat) :
    List (Bool × Nat) :=
  let id2_length := strcspnSpaceTab header2
  let scanReads := (List.range (id2_length + 1)).map (fun i => (false, i))
  if header1_length < id2_length then scanReads
  else
    let endc := cread header1 id2_length
    if endc ≠ 0 ∧ endc ≠ 32 ∧ endc ≠ 9 then scanReads ++ [(true, id2_length)]
    else
      let prev := (id2_length + (USIZE - 1)) % USIZE
      scanReads ++ [(true, id2_length), (true, prev), (false, prev)] ++
        (List.range (idsCmpLen header1 header2)).map (fun i => (true, i)) ++
        (List.range (idsCmpLen header1 header2)).map (fun i => (false, i))

/-- Every read of `record_ids_match` stays within its buffer extended by the
terminating NUL (index `≤ length`). -/
def idsMatchInBounds (header1 header2 : List Nat) (header1_length : Nat) :
    Bool :=
  (idsMatchReads header1 header2 header1_length).all
    (fun r => r.2 ≤ (if r.1 then header1.length else header2.length))

/-! ### Streaming FASTQ parser (`FastqIter`, _core.pyx lines 379-613)

The parser state mirrors the `cdef` fields of the class; the borrowed
stream source is modelled by `input`, the not-yet-delivered bytes, and
`readinto` delivers as many of them as fit in the free tail of the buffer.
-/

/-- Parser state (`FastqIter.__cinit__`, lines 409-426). -/
structure FastqIter where
  buffer_size : Nat
  buf : List Nat
  input : List Nat
  save_as_bytes : Bool
  number_of_records : Nat
  extra_newline : Bool
  yielded_two_headers : Bool
  eof : Bool
  bufend : Nat
  record_start : Nat
deriving DecidableEq

/-- Initial parser state for a stream holding `input`
(`buffer_size ≥ 1` is required by the constructor). -/
def mkIter (input : List Nat) (buffer_size : Nat) (save_as_bytes : Bool) :
    FastqIter :=
  { buffer_size := buffer_size
    buf := List.replicate buffer_size 0
    input := input
    save_as_bytes := save_as_bytes
    number_of_records := 0
    extra_newline := false
    yielded_two_headers := false
    eof := false
    bufend := 0
    record_start := 0 }

/-- Kinds of `FastqFormatError` raised by the parser. -/
inductive ErrKind where
  | missingAt
  | missingPlus
  | secondHeaderMismatch
  | lengthMismatch
  | nonAscii
  | prematureEof
deriving DecidableEq

/-- Line offset within a record that the spec assigns to each format-error
kind (`k` in *line = record_count * 4 + k*). -/
def errOffset : ErrKind → Nat
  | .missingAt => 0
  | .missingPlus => 2
  | .secondHeaderMismatch => 2
  | .lengthMismatch => 3
  | .nonAscii => 0
  | .prematureEof => 0

/-- Result of `_read_into_buffer`. -/
inductive FillResult where
  | ok (s : FastqIter)
  | fail (k : ErrKind) (line : Nat)
  | assertViolation
deriving DecidableEq

/-- Embedding of `FastqIter._read_into_buffer` (lines 428-483): grow or
shift the buffer, read from the stream, and handle end of file.  The
premature-EOF branch slices `self.buf[self.record_start:last_read_position]`
*after* the leftover was shifted to the front, exactly as the source does. -/
def readIntoBuffer (s : FastqIter) : FillResult :=
  let last_read_position := s.bufend
  let grow := s.record_start = 0 ∧ s.bufend = s.buf.length
  let buffer_size1 := if grow then s.buffer_size * 2 else s.buffer_size
  let buf1 :=
    if grow then s.buf ++ List.replicate (buffer_size1 - s.buf.length) 0
    else
      sliceL s.buf s.record_start (s.bufend - s.record_start) ++
        s.buf.drop (s.bufend - s.record_start)
  let bufstart := if grow then s.bufend else s.bufend - s.record_start
  if bufstart < buf1.length then
    let n := min s.input.length (buf1.length - bufstart)
    let buf2 := buf1.take bufstart ++ s.input.take n ++ buf1.drop (bufstart + n)
    let input2 := s.input.drop n
    let bufend2 := n + bufstart
    if bufstart = bufend2 then
      if 0 < bufstart ∧ buf2.getD (bufstart - 1) 0 ≠ 10 then
        .ok { s with buffer_size := buffer_size1
                     buf := setByte buf2 bufstart 10
                     input := input2
                     bufend := bufend2 + 1
                     extra_newline := true
                     record_start := 0 }
      else if s.record_start < last_read_position then
        let lrp := if s.extra_newline then last_read_position - 1
                   else last_read_position
        let lines := countNl (sliceL buf2 s.record_start (lrp - s.record_start))
        .fail .prematureEof (s.number_of_records * 4 + lines)
      else
        .ok { s with buffer_size := buffer_size1
                     buf := buf2
                     input := input2
                     bufend := bufend2
                     eof := true
                     record_start := 0 }
    else
      .ok { s with buffer_size := buffer_size1
                   buf := buf2
                   input := input2
                   bufend := bufend2
                   record_start := 0 }
  else .assertViolation

/-- Result of one scan attempt of `__next__` over the current buffer. -/
inductive ScanResult where
  | needMore
  | fail (k : ErrKind) (line : Nat)
  | yieldBool (b : Bool) (s : FastqIter)
  | yieldRecord (name sequence qualities : List Nat) (s : FastqIter)
deriving DecidableEq

/-- Embedding of the body of `FastqIter.__next__` (lines 504-613) for one
pass over `buf[record_start..bufend)`: locate the four newlines, validate,
and either request more data, fail, yield the first-record boolean, or
yield a record. -/
def scanOnce (s : FastqIter) : ScanResult :=
  match memchrNl s.buf s.record_start s.bufend with
  | none => .needMore
  | some name_end =>
    let sequence_start := name_end + 1
    match memchrNl s.buf sequence_start s.bufend with
    | none => .needMore
    | some sequence_end =>
      let second_header_start := sequence_end + 1
      match memchrNl s.buf second_header_start s.bufend with
      | none => .needMore
      | some second_header_end =>
        let qualities_start := second_header_end + 1
        match memchrNl s.buf qualities_start s.bufend with
        | none => .needMore
        | some qualities_end =>
          if s.buf.getD s.record_start 0 ≠ 64 then
            .fail .missingAt (s.number_of_records * 4)
          else if s.buf.getD second_header_start 0 ≠ 43 then
            .fail .missingPlus (s.number_of_records * 4 + 2)
          else
            let name_start := s.record_start + 1
            let second_header_start2 := second_header_start + 1
            let name_length0 := name_end - name_start
            let sequence_length0 := sequence_end - sequence_start
            let second_header_length0 := second_header_end - second_header_start2
            let qualities_length0 := qualities_end - qualities_start
            let name_length :=
              if s.buf.getD (name_end - 1) 0 = 13 then name_length0 - 1
              else name_length0
            let sequence_length :=
              if s.buf.getD (sequence_end - 1) 0 = 13 then sequence_length0 - 1
              else sequence_length0
            let second_header_length :=
              if s.buf.getD (second_header_end - 1) 0 = 13 then
                second_header_length0 - 1
              else second_header_length0
            let qualities_length :=
              if s.buf.getD (qualities_end - 1) 0 = 13 then qualities_length0 - 1
              else qualities_length0
            if second_header_length ≠ 0 ∧
                (name_length ≠ second_header_length ∨
                  sliceL s.buf second_header_start2 second_header_length ≠
                    sliceL s.buf name_start second_header_length) then
              .fail .secondHeaderMismatch (s.number_of_records * 4 + 2)
            else if qualities_length ≠ sequence_length then
              .fail .lengthMismatch (s.number_of_records * 4 + 3)
            else if s.number_of_records = 0 ∧ s.yielded_two_headers = false then
              .yieldBool (second_header_length != 0)
                { s with yielded_two_headers := true }
            else
              let emit : ScanResult := .yieldRecord
                (sliceL s.buf name_start name_length)
                (sliceL s.buf sequence_start sequence_length)
                (sliceL s.buf qualities_start qualities_length)
                { s with number_of_records := s.number_of_records + 1
                         record_start := qualities_end + 1 }
              if s.save_as_bytes then emit
              else if string_is_ascii s.buf s.record_start
                  (qualities_end - s.record_start) then emit
              else .fail .nonAscii (s.number_of_records * 4)

/-- Result of one call to `FastqIter.__next__`. -/
inductive NextResult where
  | yieldBool (b : Bool) (s : FastqIter)
  | yieldRecord (name sequence qualities : List Nat) (s : FastqIter)
  | stopIteration
  | fail (k : ErrKind) (line : Nat)
  | assertViolation
  | outOfFuel
deriving DecidableEq

/-- Embedding of `FastqIter.__next__` (lines 488-613): repeatedly scan, and
when the buffer lacks a full record, call `_read_into_buffer` and retry.
The retry loop is fuel-bounded; every run below uses enough fuel. -/
def nextFQ : Nat → FastqIter → NextResult
  | 0, _ => .outOfFuel
  | fuel + 1, s =>
    if s.eof then .stopIteration
    else
      match scanOnce s with
      | .needMore =>
        match readIntoBuffer s with
        | .ok s2 => nextFQ fuel s2
        | .fail k line => .fail k line
        | .assertViolation => .assertViolation
      | .fail k line => .fail k line
      | .yieldBool b s2 => .yieldBool b s2
      | .yieldRecord n sq q s2 => .yieldRecord n sq q s2

/-- One observable output of driving the parser. -/
inductive OutItem where
  | bool (b : Bool)
  | record (name sequence qualities : List Nat)
  | stop
  | fail (k : ErrKind) (line : Nat)
  | assertViolation
  | outOfFuel
deriving DecidableEq

/-- Drive the parser for up to `steps` calls to `__next__` (each with
`fuel` scan/fill rounds) and record the outputs; iteration stops at the
first `StopIteration` or error, as a Python `for` loop would. -/
def drive (fuel : Nat) : Nat → FastqIter → List OutItem
  | 0, _ => []
  | steps + 1, s =>
    match nextFQ fuel s with
    | .yieldBool b s2 => .bool b :: drive fuel steps s2
    | .yieldRecord n sq q s2 => .record n sq q :: drive fuel steps s2
    | .stopIteration => [.stop]
    | .fail k line => [.fail k line]
    | .assertViolation => [.assertViolation]
    | .outOfFuel => [.outOfFuel]

/-! ### Helper lemmas -/

theorem writeMem_aligned (A R src : List Nat) (p : Nat) (hp : p = A.length) :
    writeMem (A ++ R) p src = A ++ src ++ R.drop src.length := by
  subst hp
  unfold writeMem
  rw [List.take_left, List.drop_append]

theorem setByte_aligned (A R : List Nat) (v : Nat) (p : Nat)
    (hp : p = A.length) : setByte (A ++ R) p v = A ++ R.set 0 v := by
  subst hp
  show (A ++ R).set A.length v = A ++ R.set 0 v
  rw [List.set_append_right _ _ (Nat.le_refl _), Nat.sub_self]

theorem writeMem_zeros (A src : List Nat) (k p : Nat) (hp : p = A.length) :
    writeMem (A ++ List.replicate k 0) p src =
      A ++ src ++ List.replicate (k - src.length) 0 := by
  rw [writeMem_aligned A _ src p hp, List.drop_replicate]

theorem setByte_zeros (A : List Nat) (v k j p : Nat) (hp : p = A.length)
    (hk : k = j + 1) :
    setByte (A ++ List.replicate k 0) p v = A ++ [v] ++ List.replicate j 0 := by
  rw [setByte_aligned A _ v p hp, hk, List.replicate_succ]
  simp

theorem setByte_zeros0 (v k j : Nat) (hk : k = j + 1) :
    setByte (List.replicate k 0) 0 v = [v] ++ List.replicate j 0 := by
  have h := setByte_zeros [] v k j 0 rfl hk
  simpa using h

/-- The serializer writes exactly the FASTQ wire format. -/
theorem create_fastq_record_eq_wire (name seq qual : List Nat) (th : Bool) :
    create_fastq_record name seq qual th = fastqWire name seq qual th := by
  cases th
  · show setByte (writeMem (setByte (setByte (setByte (writeMem (setByte
      (writeMem (setByte (List.replicate (name.length + seq.length +
        qual.length + 6) 0) 0 64) 1 name) (name.length + 1) 10)
      (name.length + 1 + 1) seq) (name.length + 1 + 1 + seq.length) 10)
      (name.length + 1 + 1 + seq.length + 1) 43)
      (name.length + 1 + 1 + seq.length + 1 + 1) 10)
      (name.length + 1 + 1 + seq.length + 1 + 1 + 1) qual)
      (name.length + 1 + 1 + seq.length + 1 + 1 + 1 + qual.length) 10 =
      fastqWire name seq qual false
    rw [setByte_zeros0 64 (name.length + seq.length + qual.length + 6)
      (name.length + seq.length + qual.length + 5) (by omega)]
    rw [writeMem_zeros _ name _ 1 (by simp <;> omega)]
    rw [setByte_zeros _ 10 _ (seq.length + qual.length + 4) _
      (by simp <;> omega) (by omega)]
    rw [writeMem_zeros _ seq _ _ (by simp <;> omega)]
    rw [setByte_zeros _ 10 _ (qual.length + 3) _ (by simp <;> omega) (by omega)]
    rw [setByte_zeros _ 43 _ (qual.length + 2) _ (by simp <;> omega) (by omega)]
    rw [setByte_zeros _ 10 _ (qual.length + 1) _ (by simp <;> omega) (by omega)]
    rw [writeMem_zeros _ qual _ _ (by simp <;> omega)]
    rw [setByte_zeros _ 10 _ 0 _ (by simp <;> omega) (by omega)]
    simp [fastqWire]
  · show setByte (writeMem (setByte (writeMem (setByte (setByte (writeMem (setByte
      (writeMem (setByte (List.replicate (name.length + seq.length +
        qual.length + 6 + name.length) 0) 0 64) 1 name) (name.length + 1) 10)
      (name.length + 1 + 1) seq) (name.length + 1 + 1 + seq.length) 10)
      (name.length + 1 + 1 + seq.length + 1) 43)
      (name.length + 1 + 1 + seq.length + 1 + 1) name)
      (name.length + 1 + 1 + seq.length + 1 + 1 + name.length) 10)
      (name.length + 1 + 1 + seq.length + 1 + 1 + name.length + 1) qual)
      (name.length + 1 + 1 + seq.length + 1 + 1 + name.length + 1 + qual.length) 10 =
      fastqWire name seq qual true
    rw [setByte_zeros0 64 (name.length + seq.length + qual.length + 6 + name.length)
      (name.length + seq.length + qual.length + 5 + name.length) (by omega)]
    rw [writeMem_zeros _ name _ 1 (by simp <;> omega)]
    rw [setByte_zeros _ 10 _ (seq.length + qual.length + 4 + name.length) _
      (by simp <;> omega) (by omega)]
    rw [writeMem_zeros _ seq _ _ (by simp <;> omega)]
    rw [setByte_zeros _ 10 _ (qual.length + 3 + name.length) _
      (by simp <;> omega) (by omega)]
    rw [setByte_zeros _ 43 _ (qual.length + 2 + name.length) _
      (by simp <;> omega) (by omega)]
    rw [writeMem_zeros _ name _ _ (by simp <;> omega)]
    rw [setByte_zeros _ 10 _ (qual.length + 1) _ (by simp <;> omega) (by omega)]
    rw [writeMem_zeros _ qual _ _ (by simp <;> omega)]
    rw [setByte_zeros _ 10 _ 0 _ (by simp <;> omega) (by omega)]
    simp [fastqWire]

/-! ### C2: serializer exactness -/

/-- C2: for every record with qualities present, `fastq_bytes(two_headers)`
returns the byte buffer of exact size
`1 + |name| + 1 + |sequence| + 1 + 1 + (|name| if two_headers else 0) + 1 +
|qualities| + 1` whose content is `'@' name '\n' sequence '\n' '+'
(name if two_headers) '\n' qualities '\n'`. -/
theorem fastq_bytes_exact (r : PySequence) (q : List Nat) (th : Bool)
    (hq : r.qualities = some q) :
    Sequence.fastq_bytes r th = .ok (create_fastq_record r.name r.sequence q th) ∧
    (create_fastq_record r.name r.sequence q th).length =
      1 + r.name.length + 1 + r.sequence.length + 1 + 1 +
        (if th then r.name.length else 0) + 1 + q.length + 1 ∧
    create_fastq_record r.name r.sequence q th =
      [64] ++ r.name ++ [10] ++ r.sequence ++ [10] ++ [43] ++
        (if th then r.name else []) ++ [10] ++ q ++ [10] := by
  refine ⟨by simp [Sequence.fastq_bytes, hq], ?_, ?_⟩
  · rw [create_fastq_record_eq_wire]
    cases th <;> simp [fastqWire] <;> omega
  · rw [create_fastq_record_eq_wire]
    cases th <;> simp [fastqWire]

/-- Witness for C2 at a concrete record. -/
theorem fastq_bytes_exact_witness :
    Sequence.fastq_bytes ⟨[114], [65], some [73]⟩ true =
      .ok (create_fastq_record [114] [65] [73] true) ∧
    (create_fastq_record [114] [65] [73] true).length =
      1 + 1 + 1 + 1 + 1 + 1 + (if true then 1 else 0) + 1 + 1 + 1 ∧
    create_fastq_record [114] [65] [73] true =
      [64] ++ [114] ++ [10] ++ [65] ++ [10] ++ [43] ++
        (if true then [114] else []) ++ [10] ++ [73] ++ [10] :=
  fastq_bytes_exact ⟨[114], [65], some [73]⟩ [73] true rfl

/-! ### C5: missing final newline accepted -/

/-- C5: parsing the input bytes `@r\nA\n+\nI` (no trailing newline) produces
first the boolean `False`, then the record `(name = "r", sequence = "A",
qualities = "I")`, then EOF, with no error.  (Initial buffer size 8, so this
run also exercises the buffer-doubling and synthetic-newline paths.) -/
theorem missing_final_newline_accepted :
    drive 4 3 (mkIter [64, 114, 10, 65, 10, 43, 10, 73] 8 false) =
      [.bool false, .record [114] [65] [73], .stop] := by decide

/-! ### C4: premature-EOF line reporting -/

/-- One full record `@\nA\n+\nI\n` followed by the incomplete record
`@longname1\n` whose leftover (11 bytes) is longer than the consumed
prefix (8 bytes). -/
def c4input : List Nat :=
  [64, 10, 65, 10, 43, 10, 73, 10, 64, 108, 111, 110, 103, 110, 97, 109, 101, 49, 10]

/-- C4: the code violates the claim.  On `c4input` the incomplete final
record `@longname1\n` contains 1 newline, so the claim predicts line
`1 * 4 + 1 = 5`; the code reports line 6, because `_read_into_buffer`
slices `buf[record_start:last_read_position]` after the leftover has been
shifted to the front of the buffer, with the stale pre-shift
`record_start`, so it counts newlines of corrupted bytes (the same stale
slice is interpolated into the error message, contradicting the message's
own text). -/
theorem premature_eof_line_bug :
    drive 4 3 (mkIter c4input 19 false) =
      [.bool false, .record [] [65] [73], .fail .prematureEof 6] ∧
    countNl (c4input.drop 8) = 1 ∧
    (6 : Nat) ≠ 1 * 4 + 1 := by decide

/-! ### C7 and C10: ID matcher -/

theorem strcspnAux_ge (h : List Nat) (i fuel : Nat) :
    i ≤ strcspnAux h i fuel := by
  induction fuel generalizing i with
  | zero => exact Nat.le_refl _
  | succ k ih =>
    unfold strcspnAux
    split
    · exact Nat.le_refl _
    · exact Nat.le_trans (Nat.le_succ _) (ih (i + 1))

theorem strcspnAux_le (h : List Nat) (i fuel : Nat) :
    strcspnAux h i fuel ≤ i + fuel := by
  induction fuel generalizing i with
  | zero => simp [strcspnAux]
  | succ k ih =>
    unfold strcspnAux
    split
    · omega
    · have := ih (i + 1)
      omega

theorem strcspnAux_hit (h : List Nat) (i fuel : Nat)
    (hlt : strcspnAux h i fuel < i + fuel) :
    cread h (strcspnAux h i fuel) = 0 ∨ cread h (strcspnAux h i fuel) = 32 ∨
      cread h (strcspnAux h i fuel) = 9 := by
  induction fuel generalizing i with
  | zero => simp [strcspnAux] at hlt
  | succ k ih =>
    rw [strcspnAux] at hlt ⊢
    by_cases h2 : cread h i = 0 ∨ cread h i = 32 ∨ cread h i = 9
    · simpa [if_pos h2] using h2
    · simp only [if_neg h2] at hlt ⊢
      exact ih (i + 1) (by omega)

theorem strcspnSpaceTab_le (h : List Nat) : strcspnSpaceTab h ≤ h.length := by
  have := strcspnAux_le h 0 h.length
  unfold strcspnSpaceTab
  omega

/-- C7: `ids_match(n, n)` is true for every name `n`, including the empty
name.  (Out-of-range C-string reads are modelled as reading the
NUL-extension value `0`; the bounds of those reads are the subject of the
separate memory-safety analysis.) -/
theorem record_ids_match_refl (n : List Nat) :
    record_ids_match n n n.length = true := by
  unfold record_ids_match
  simp only []
  have hle : strcspnSpaceTab n ≤ n.length := strcspnSpaceTab_le n
  rw [if_neg (by omega)]
  have hend : ¬(cread n (strcspnSpaceTab n) ≠ 0 ∧
      cread n (strcspnSpaceTab n) ≠ 32 ∧ cread n (strcspnSpaceTab n) ≠ 9) := by
    by_cases hc : strcspnSpaceTab n < n.length
    · have hhit := strcspnAux_hit n 0 n.length
        (by unfold strcspnSpaceTab at hc; omega)
      unfold strcspnSpaceTab
      tauto
    · have hz : cread n (strcspnSpaceTab n) = 0 := by
        have : strcspnSpaceTab n = n.length := by omega
        simp [cread, this, List.getD_eq_default]
      tauto
  rw [if_neg hend]
  simp

/-- C10 counterexample: with two empty names, the trailing-digit check of
`record_ids_match` reads both buffers at the `size_t` index
`id2_length - 1 = 2^64 - 1`, far outside the NUL-extended buffers (in
pointer arithmetic, one byte before each buffer), so the claimed
memory-safety property is false. -/
theorem ids_match_oob_read :
    idsMatchInBounds [] [] 0 = false ∧
    idsMatchReads [] [] 0 =
      [(false, 0), (true, 0), (true, USIZE - 1), (false, USIZE - 1)] := by decide

/-- C10 amended: when the ID of the second name is non-empty (its first
byte is none of NUL, space, tab) and the name length is realistic for
`size_t`, every read of `record_ids_match` is within the corresponding
buffer extended by its terminating NUL. -/
theorem ids_match_reads_in_bounds (h1 h2 : List Nat)
    (hid : 1 ≤ strcspnSpaceTab h2) (hlen : h2.length < USIZE) :
    idsMatchInBounds h1 h2 h1.length = true := by
  have hle : strcspnSpaceTab h2 ≤ h2.length := strcspnSpaceTab_le h2
  have hprev : (strcspnSpaceTab h2 + (USIZE - 1)) % USIZE =
      strcspnSpaceTab h2 - 1 := by
    have e : strcspnSpaceTab h2 + (USIZE - 1) =
        USIZE + (strcspnSpaceTab h2 - 1) := by omega
    rw [e, Nat.add_mod_left, Nat.mod_eq_of_lt (by omega)]
  have hcmp : idsCmpLen h1 h2 ≤ strcspnSpaceTab h2 := by
    unfold idsCmpLen
    split
    · rw [hprev]; omega
    · exact Nat.le_refl _
  unfold idsMatchInBounds idsMatchReads
  rw [List.all_eq_true]
  intro x hx
  simp only [] at hx
  split at hx
  case isTrue hc =>
    simp only [List.mem_map, List.mem_range] at hx
    obtain ⟨i, hi, rfl⟩ := hx
    simp only [Bool.false_eq_true, if_false, decide_eq_true_eq]
    omega
  case isFalse hc =>
    split at hx
    case isTrue hend =>
      simp only [List.mem_append, List.mem_map, List.mem_range,
        List.mem_singleton] at hx
      rcases hx with ⟨i, hi, rfl⟩ | rfl
      · simp only [Bool.false_eq_true, if_false, decide_eq_true_eq]
        omega
      · simp only [if_true, decide_eq_true_eq]
        omega
    case isFalse hend =>
      simp only [List.mem_append, List.mem_map, List.mem_range,
        List.mem_cons, List.not_mem_nil, or_false] at hx
      rcases hx with ((⟨i, hi, rfl⟩ | rfl | rfl | rfl) | ⟨i, hi, rfl⟩) |
        ⟨i, hi, rfl⟩
      · simp only [Bool.false_eq_true, if_false, decide_eq_true_eq]
        omega
      · simp only [if_true, decide_eq_true_eq]
        omega
      · simp only [if_true, decide_eq_true_eq]
        rw [hprev]
        omega
      · simp only [Bool.false_eq_true, if_false, decide_eq_true_eq]
        rw [hprev]
        omega
      · simp only [if_true, decide_eq_true_eq]
        omega
      · simp only [Bool.false_eq_true, if_false, decide_eq_true_eq]
        omega

/-- Witness for the amended C10 at concrete one-byte names. -/
theorem ids_match_reads_in_bounds_witness :
    idsMatchInBounds [114] [114] [114].length = true :=
  ids_match_reads_in_bounds [114] [114] (by decide) (by decide)

/-! ### C8: field replacement and the length invariant -/

/-- C8 counterexample: a validly constructed record accepts a
length-changing sequence replacement through the `sequence` setter, after
which `len(qualities) == len(sequence)` no longer holds: the setters
re-validate only the type and ASCII-ness of the new value, not the length
invariant. -/
theorem setter_skips_length_check :
    Sequence.init [110] [65] (some [73]) = .ok ⟨[110], [65], some [73]⟩ ∧
    Sequence.setSequenceField ⟨[110], [65], some [73]⟩ [65, 67] =
      .ok ⟨[110], [65, 67], some [73]⟩ ∧
    lenInvariantB ⟨[110], [65, 67], some [73]⟩ = false :=
  ⟨rfl, rfl, rfl⟩

/-- C8 amended: replacement of the `sequence` or `qualities` field
re-validates that the new value is an ASCII string (rejecting non-ASCII)
and changes only that field, but does not re-check the length invariant;
the invariant survives exactly those accepted replacements that preserve
the length relation. -/
theorem setter_revalidates_ascii_only (r r1 r2 : PySequence)
    (s q : List Nat) :
    (Sequence.setSequenceField r s = .ok r1 →
      isAsciiStr s = true ∧ r1 = { r with sequence := s }) ∧
    (isAsciiStr s = false →
      Sequence.setSequenceField r s = .error .nonAsciiValue) ∧
    (Sequence.setQualitiesField r (some q) = .ok r2 →
      isAsciiStr q = true ∧ r2 = { r with qualities := some q }) ∧
    (Sequence.setSequenceField r s = .ok r1 → s.length = r.sequence.length →
      lenInvariantB r = true → lenInvariantB r1 = true) ∧
    (Sequence.setQualitiesField r (some q) = .ok r2 →
      q.length = r.sequence.length → lenInvariantB r2 = true) := by
  refine ⟨?_, ?_, ?_, ?_, ?_⟩
  · intro h
    unfold Sequence.setSequenceField at h
    split at h
    · exact ⟨by assumption, (Except.ok.inj h).symm⟩
    · exact Except.noConfusion h
  · intro h
    unfold Sequence.setSequenceField
    rw [h]
    simp
  · intro h
    simp only [Sequence.setQualitiesField] at h
    split at h
    · exact ⟨by assumption, (Except.ok.inj h).symm⟩
    · exact Except.noConfusion h
  · intro h hlen hinv
    unfold Sequence.setSequenceField at h
    split at h
    · rw [← Except.ok.inj h]
      cases hq : r.qualities with
      | none => simp [lenInvariantB, hq]
      | some q' =>
        simp only [lenInvariantB, hq, beq_iff_eq] at hinv ⊢
        simp only [hinv, hlen]
    · exact Except.noConfusion h
  · intro h hlen
    simp only [Sequence.setQualitiesField] at h
    split at h
    · rw [← Except.ok.inj h]
      simp [lenInvariantB, hlen]
    · exact Except.noConfusion h

/-- Witness for the amended C8: a length-preserving qualities replacement
keeps the invariant. -/
theorem setter_revalidates_ascii_only_witness :
    lenInvariantB ⟨[110], [65], some [74]⟩ = true :=
  (setter_revalidates_ascii_only ⟨[110], [65], some [73]⟩
      ⟨[110], [65], some [73]⟩ ⟨[110], [65], some [74]⟩ [65] [74]).2.2.2.2
    rfl (by decide)

/-! ### C9: errors for records without qualities -/

/-- C9 counterexample: on a record without qualities, `fastq_bytes` fails
with the designated missing-qualities `ValueError`, but
`qualities_as_bytes` fails with an `AttributeError` (the source calls
`self._qualities.encode('ascii')` and `None` has no `encode`), which is a
different error kind, so the two methods do not both fail with
`MissingQualities`. -/
theorem qualities_as_bytes_attribute_error :
    Sequence.qualities_as_bytes ⟨[110], [65], none⟩ = .error .attributeError ∧
    Sequence.fastq_bytes ⟨[110], [65], none⟩ false =
      .error .missingQualitiesValue ∧
    PyErr.attributeError ≠ PyErr.missingQualitiesValue :=
  ⟨rfl, rfl, by decide⟩

/-- C9 amended: for every record whose qualities are absent, `fastq_bytes`
fails with the MissingQualities error while `qualities_as_bytes` fails with
an AttributeError; both are pure and leave the record unchanged. -/
theorem missing_qualities_errors (r : PySequence) (th : Bool)
    (h : r.qualities = none) :
    Sequence.fastq_bytes r th = .error .missingQualitiesValue ∧
    Sequence.qualities_as_bytes r = .error .attributeError := by
  unfold Sequence.fastq_bytes Sequence.qualities_as_bytes
  rw [h]
  exact ⟨rfl, rfl⟩

/-- Witness for the amended C9 at a concrete record. -/
theorem missing_qualities_errors_witness :
    Sequence.fastq_bytes ⟨[110], [65], none⟩ true =
      .error .missingQualitiesValue ∧
    Sequence.qualities_as_bytes ⟨[110], [65], none⟩ =
      .error .attributeError :=
  missing_qualities_errors ⟨[110], [65], none⟩ true rfl

/-! ### C6: paired-head synchronizer postcondition -/

theorem countNl_take_succ (d : List Nat) (p : Nat) :
    countNl (d.take (p + 1)) =
      countNl (d.take p) + (if d.getD p 0 = 10 then 1 else 0) := by
  rw [countNl, countNl, List.take_succ, List.count_append]
  congr 1
  rw [List.getD_eq_getD_get?, List.get?_eq_getElem?]
  cases h : d[p]? with
  | none => rfl
  | some a =>
    show List.count 10 [a] = if a = 10 then 1 else 0
    rw [List.count_singleton]
    by_cases ha : a = 10
    · simp [ha]
    · simp [ha, Ne.symm ha]

theorem countNl_take_mono (d : List Nat) (m k : Nat) (h : m ≤ k) :
    countNl (d.take m) ≤ countNl (d.take k) := by
  rw [countNl, countNl,
    show d.take m = (d.take k).take m by rw [List.take_take, Nat.min_eq_left h]]
  exact List.Sublist.count_le (List.take_sublist _ _) _

theorem scanNlAux_count (d : List Nat) (pos left : Nat) :
    countNl (d.take (scanNlAux d pos left)) = countNl (d.take pos) := by
  induction left generalizing pos with
  | zero => rfl
  | succ k ih =>
    unfold scanNlAux
    split
    · rfl
    · rw [ih (pos + 1), countNl_take_succ, if_neg (by assumption), Nat.add_zero]

theorem scanNl_count (d : List Nat) (pos stop : Nat) :
    countNl (d.take (scanNl d pos stop)) = countNl (d.take pos) :=
  scanNlAux_count d pos (stop - pos)

theorem scanNlAux_hit (d : List Nat) (pos left : Nat)
    (h : scanNlAux d pos left < pos + left) :
    d.getD (scanNlAux d pos left) 0 = 10 := by
  induction left generalizing pos with
  | zero => simp [scanNlAux] at h
  | succ k ih =>
    rw [scanNlAux] at h ⊢
    by_cases hb : d.getD pos 0 = 10
    · rw [if_pos hb]
      exact hb
    · rw [if_neg hb] at h ⊢
      exact ih (pos + 1) (by omega)

theorem scanNl_hit (d : List Nat) (pos stop : Nat) (hle : pos ≤ stop)
    (h : scanNl d pos stop ≠ stop) :
    d.getD (scanNl d pos stop) 0 = 10 := by
  have h2 := scanNlAux_le d pos (stop - pos)
  unfold scanNl at h ⊢
  exact scanNlAux_hit d pos (stop - pos) (by omega)

/-- Loop invariant of `paired_fastq_heads`: starting from matched cursors
whose prefixes hold `4 * q + lb` newlines each and recorded positions
holding `4 * q` newlines each, the loop returns recorded positions within
the logical ends, with equal newline counts divisible by four, and it
returns the entry pair unchanged when fewer than four newlines exist. -/
theorem pfhLoop_spec (b1 b2 : List Nat) (e1 e2 pos1 pos2 lb rs1 rs2 : Nat) :
    ∀ q : Nat, pos1 ≤ e1 → pos2 ≤ e2 → rs1 ≤ e1 → rs2 ≤ e2 → lb ≤ 3 →
    countNl (b1.take pos1) = 4 * q + lb →
    countNl (b2.take pos2) = 4 * q + lb →
    countNl (b1.take rs1) = 4 * q →
    countNl (b2.take rs2) = 4 * q →
    (pfhLoop b1 b2 e1 e2 pos1 pos2 lb rs1 rs2).1 ≤ e1 ∧
    (pfhLoop b1 b2 e1 e2 pos1 pos2 lb rs1 rs2).2 ≤ e2 ∧
    countNl (b1.take (pfhLoop b1 b2 e1 e2 pos1 pos2 lb rs1 rs2).1) =
      countNl (b2.take (pfhLoop b1 b2 e1 e2 pos1 pos2 lb rs1 rs2).2) ∧
    4 ∣ countNl (b1.take (pfhLoop b1 b2 e1 e2 pos1 pos2 lb rs1 rs2).1) ∧
    ((countNl (b1.take e1) < 4 ∨ countNl (b2.take e2) < 4) →
      pfhLoop b1 b2 e1 e2 pos1 pos2 lb rs1 rs2 = (rs1, rs2)) := by
  induction pos1, pos2, lb, rs1, rs2 using pfhLoop.induct b1 b2 e1 e2 with
  | case1 pos1 pos2 lb rs1 rs2 p1 hp1 =>
    intro q hp1e hp2e hr1e hr2e hlb hc1 hc2 hr1 hr2
    have hres : pfhLoop b1 b2 e1 e2 pos1 pos2 lb rs1 rs2 = (rs1, rs2) := by
      rw [pfhLoop]
      simp only []
      rw [if_pos hp1]
    rw [hres]
    refine ⟨hr1e, hr2e, hr1.trans hr2.symm, ?_, fun _ => rfl⟩
    rw [hr1]
    exact Dvd.intro q rfl
  | case2 pos1 pos2 lb rs1 rs2 p1 hp1 p2 hp2 =>
    intro q hp1e hp2e hr1e hr2e hlb hc1 hc2 hr1 hr2
    have hres : pfhLoop b1 b2 e1 e2 pos1 pos2 lb rs1 rs2 = (rs1, rs2) := by
      rw [pfhLoop]
      simp only []
      rw [if_neg hp1, if_pos hp2]
    rw [hres]
    refine ⟨hr1e, hr2e, hr1.trans hr2.symm, ?_, fun _ => rfl⟩
    rw [hr1]
    exact Dvd.intro q rfl
  | case3 pos1 pos2 lb rs1 rs2 p1 hp1 p2 hp2 hguard =>
    intro q hp1e hp2e hr1e hr2e hlb hc1 hc2 hr1 hr2
    exact absurd hp1e (by omega)
  | case4 pos1 pos2 lb rs1 rs2 p1 hp1 p2 hp2 hguard hlb4 ih =>
    intro q hp1e hp2e hr1e hr2e hlb hc1 hc2 hr1 hr2
    have hple1 : p1 ≤ e1 := scanNl_le b1 pos1 e1 hp1e
    have hple2 : p2 ≤ e2 := scanNl_le b2 pos2 e2 hp2e
    have hit1 : b1.getD p1 0 = 10 := scanNl_hit b1 pos1 e1 hp1e hp1
    have hit2 : b2.getD p2 0 = 10 := scanNl_hit b2 pos2 e2 hp2e hp2
    have hcount1 : countNl (b1.take p1) = countNl (b1.take pos1) :=
      scanNl_count b1 pos1 e1
    have hcount2 : countNl (b2.take p2) = countNl (b2.take pos2) :=
      scanNl_count b2 pos2 e2
    have hsucc1 : countNl (b1.take (p1 + 1)) = 4 * (q + 1) := by
      rw [countNl_take_succ, if_pos hit1, hcount1, hc1]
      omega
    have hsucc2 : countNl (b2.take (p2 + 1)) = 4 * (q + 1) := by
      rw [countNl_take_succ, if_pos hit2, hcount2, hc2]
      omega
    have hres : pfhLoop b1 b2 e1 e2 pos1 pos2 lb rs1 rs2 =
        pfhLoop b1 b2 e1 e2 (p1 + 1) (p2 + 1) 0 (p1 + 1) (p2 + 1) := by
      rw [pfhLoop]
      simp only []
      rw [if_neg hp1, if_neg hp2, if_neg hguard, if_pos hlb4]
    have hmain := ih (q + 1) (by omega) (by omega) (by omega) (by omega)
      (by omega) (by omega) (by omega) (by omega) (by omega)
    rw [hres]
    refine ⟨hmain.1, hmain.2.1, hmain.2.2.1, hmain.2.2.2.1, ?_⟩
    intro hlow
    exfalso
    have m1 := countNl_take_mono b1 (p1 + 1) e1 (by omega)
    have m2 := countNl_take_mono b2 (p2 + 1) e2 (by omega)
    omega
  | case5 pos1 pos2 lb rs1 rs2 p1 hp1 p2 hp2 hguard hlb4 ih =>
    intro q hp1e hp2e hr1e hr2e hlb hc1 hc2 hr1 hr2
    have hple1 : p1 ≤ e1 := scanNl_le b1 pos1 e1 hp1e
    have hple2 : p2 ≤ e2 := scanNl_le b2 pos2 e2 hp2e
    have hit1 : b1.getD p1 0 = 10 := scanNl_hit b1 pos1 e1 hp1e hp1
    have hit2 : b2.getD p2 0 = 10 := scanNl_hit b2 pos2 e2 hp2e hp2
    have hcount1 : countNl (b1.take p1) = countNl (b1.take pos1) :=
      scanNl_count b1 pos1 e1
    have hcount2 : countNl (b2.take p2) = countNl (b2.take pos2) :=
      scanNl_count b2 pos2 e2
    have hsucc1 : countNl (b1.take (p1 + 1)) = 4 * q + (lb + 1) := by
      rw [countNl_take_succ, if_pos hit1, hcount1, hc1]
      omega
    have hsucc2 : countNl (b2.take (p2 + 1)) = 4 * q + (lb + 1) := by
      rw [countNl_take_succ, if_pos hit2, hcount2, hc2]
      omega
    have hres : pfhLoop b1 b2 e1 e2 pos1 pos2 lb rs1 rs2 =
        pfhLoop b1 b2 e1 e2 (p1 + 1) (p2 + 1) (lb + 1) rs1 rs2 := by
      rw [pfhLoop]
      simp only []
      rw [if_neg hp1, if_neg hp2, if_neg hguard, if_neg hlb4]
    have hmain := ih q (by omega) (by omega) hr1e hr2e (by omega)
      (by omega) (by omega) hr1 hr2
    rw [hres]
    exact hmain

/-- C6: for all byte buffers `b1, b2` with logical ends `e1, e2`,
`paired_fastq_heads` returns `(len1, len2)` with `len1 ≤ e1` and
`len2 ≤ e2` such that `b1[0..len1]` and `b2[0..len2]` contain the same
number of complete newline-terminated lines, that number is a multiple of
four, and the result is `(0, 0)` whenever either buffer contains fewer
than four newlines. -/
theorem paired_fastq_heads_spec (b1 b2 : List Nat) (e1 e2 : Nat)
    (h1 : e1 ≤ b1.length) (h2 : e2 ≤ b2.length) :
    (paired_fastq_heads b1 b2 e1 e2).1 ≤ e1 ∧
    (paired_fastq_heads b1 b2 e1 e2).2 ≤ e2 ∧
    countNl (b1.take (paired_fastq_heads b1 b2 e1 e2).1) =
      countNl (b2.take (paired_fastq_heads b1 b2 e1 e2).2) ∧
    4 ∣ countNl (b1.take (paired_fastq_heads b1 b2 e1 e2).1) ∧
    ((countNl (b1.take e1) < 4 ∨ countNl (b2.take e2) < 4) →
      paired_fastq_heads b1 b2 e1 e2 = (0, 0)) :=
  pfhLoop_spec b1 b2 e1 e2 0 0 0 0 0 0 (Nat.zero_le _) (Nat.zero_le _)
    (Nat.zero_le _) (Nat.zero_le _) (by omega) rfl rfl rfl rfl

/-- Witness for C6 at concrete buffers: one full record plus a fifth line
on the left, exactly one record on the right. -/
theorem paired_fastq_heads_spec_witness :
    (paired_fastq_heads [64, 10, 65, 10, 43, 10, 73, 10, 64, 10]
      [64, 10, 66, 10, 43, 10, 74, 10] 10 8).1 ≤ 10 ∧
    (paired_fastq_heads [64, 10, 65, 10, 43, 10, 73, 10, 64, 10]
      [64, 10, 66, 10, 43, 10, 74, 10] 10 8).2 ≤ 8 ∧
    countNl ([64, 10, 65, 10, 43, 10, 73, 10, 64, 10].take
      (paired_fastq_heads [64, 10, 65, 10, 43, 10, 73, 10, 64, 10]
        [64, 10, 66, 10, 43, 10, 74, 10] 10 8).1) =
      countNl ([64, 10, 66, 10, 43, 10, 74, 10].take
        (paired_fastq_heads [64, 10, 65, 10, 43, 10, 73, 10, 64, 10]
          [64, 10, 66, 10, 43, 10, 74, 10] 10 8).2) ∧
    4 ∣ countNl ([64, 10, 65, 10, 43, 10, 73, 10, 64, 10].take
      (paired_fastq_heads [64, 10, 65, 10, 43, 10, 73, 10, 64, 10]
        [64, 10, 66, 10, 43, 10, 74, 10] 10 8).1) ∧
    ((countNl ([64, 10, 65, 10, 43, 10, 73, 10, 64, 10].take 10) < 4 ∨
      countNl ([64, 10, 66, 10, 43, 10, 74, 10].take 8) < 4) →
      paired_fastq_heads [64, 10, 65, 10, 43, 10, 73, 10, 64, 10]
        [64, 10, 66, 10, 43, 10, 74, 10] 10 8 = (0, 0)) :=
  paired_fastq_heads_spec [64, 10, 65, 10, 43, 10, 73, 10, 64, 10]
    [64, 10, 66, 10, 43, 10, 74, 10] 10 8 (by decide) (by decide)

/-! ### C3: format-error line numbering -/

set_option maxHeartbeats 1000000 in
theorem scanOnce_fail_line (s : FastqIter) (k : ErrKind) (line : Nat)
    (h : scanOnce s = .fail k line) :
    line = s.number_of_records * 4 + errOffset k := by
  unfold scanOnce at h
  simp only [] at h
  repeat' split at h
  all_goals cases h
  all_goals simp [errOffset]

set_option maxHeartbeats 1000000 in
theorem scanOnce_record_count (s : FastqIter) (nm sq q : List Nat)
    (s2 : FastqIter) (h : scanOnce s = .yieldRecord nm sq q s2) :
    s2.number_of_records = s.number_of_records + 1 := by
  unfold scanOnce at h
  simp only [] at h
  repeat' split at h
  all_goals cases h
  all_goals simp

set_option maxHeartbeats 1000000 in
theorem readIntoBuffer_ok_records (s s2 : FastqIter)
    (h : readIntoBuffer s = .ok s2) :
    s2.number_of_records = s.number_of_records := by
  unfold readIntoBuffer at h
  simp only [] at h
  repeat' split at h
  all_goals cases h
  all_goals simp

set_option maxHeartbeats 1000000 in
theorem readIntoBuffer_fail_kind (s : FastqIter) (k : ErrKind) (line : Nat)
    (h : readIntoBuffer s = .fail k line) : k = .prematureEof := by
  unfold readIntoBuffer at h
  simp only [] at h
  repeat' split at h
  all_goals cases h
  all_goals simp

/-- C3: a format error raised while the parser has emitted
`number_of_records` records reports line `number_of_records * 4 + offset`,
where the offset is 0 for a missing `@` and for non-ASCII input, 2 for a
missing `+` and for a mismatched second header, and 3 for a
sequence/qualities length disagreement; and each yielded record increments
the record counter by exactly one, so after `k - 1` successful records the
error line is `(k - 1) * 4 + offset`. -/
theorem format_error_line_numbering (fuel : Nat) (s : FastqIter) :
    (∀ k line, nextFQ fuel s = .fail k line → k ≠ .prematureEof →
      line = s.number_of_records * 4 + errOffset k) ∧
    (∀ nm sq q s2, nextFQ fuel s = .yieldRecord nm sq q s2 →
      s2.number_of_records = s.number_of_records + 1) := by
  induction fuel generalizing s with
  | zero =>
    constructor
    · intro k line h
      simp [nextFQ] at h
    · intro nm sq q s2 h
      simp [nextFQ] at h
  | succ n ih =>
    constructor
    · intro k line h hk
      rw [nextFQ] at h
      split at h
      · exact absurd h (by simp)
      · split at h
        case h_1 heq =>
          split at h
          case h_1 s2 heq2 =>
            rw [(ih s2).1 k line h hk,
              readIntoBuffer_ok_records s s2 heq2]
          case h_2 k2 line2 heq2 =>
            have hke := readIntoBuffer_fail_kind s k2 line2 heq2
            cases h
            exact absurd hke hk
          case h_3 => exact absurd h (by simp)
        case h_2 k2 line2 heq =>
          cases h
          exact scanOnce_fail_line s k line heq
        case h_3 => exact absurd h (by simp)
        case h_4 => exact absurd h (by simp)
    · intro nm sq q s2 h
      rw [nextFQ] at h
      split at h
      · exact absurd h (by simp)
      · split at h
        case h_1 heq =>
          split at h
          case h_1 s3 heq2 =>
            rw [(ih s3).2 nm sq q s2 h,
              readIntoBuffer_ok_records s s3 heq2]
          case h_2 => exact absurd h (by simp)
          case h_3 => exact absurd h (by simp)
        case h_2 => exact absurd h (by simp)
        case h_3 => exact absurd h (by simp)
        case h_4 nm2 sq2 q2 s3 heq =>
          cases h
          exact scanOnce_record_count s nm sq q s2 heq

/-- Witness for C3: on `@r\nAC\n+\nI\n` the parser raises the
length-mismatch error at line 3 with no records yet emitted. -/
theorem format_error_line_numbering_witness :
    (3 : Nat) = (mkIter [64, 114, 10, 65, 67, 10, 43, 10, 73, 10] 10
      false).number_of_records * 4 + errOffset .lengthMismatch :=
  (format_error_line_numbering 2
      (mkIter [64, 114, 10, 65, 67, 10, 43, 10, 73, 10] 10 false)).1
    .lengthMismatch 3 (by decide) (by decide)

/-! ### C1: round trip, helper lemmas -/

theorem getD_ne_of_not_mem (l : List Nat) (v i d : Nat) (hv : ¬v ∈ l)
    (hd : d ≠ v) : l.getD i d ≠ v := by
  by_cases hi : i < l.length
  · rw [List.getD_eq_getElem l d hi]
    intro he
    exact hv (he ▸ List.getElem_mem hi)
  · rw [List.getD_eq_default l d (by omega)]
    exact hd

theorem getD_last_ne (l : List Nat) (v : Nat) (hv : l.getLast? ≠ some v)
    (h0 : (0 : Nat) ≠ v) : l.getD (l.length - 1) 0 ≠ v := by
  cases l with
  | nil => simpa using h0
  | cons a as =>
    rw [List.getD_eq_getElem _ _ (by simp)]
    intro he
    apply hv
    rw [List.getLast?_eq_getElem?, List.getElem?_eq_getElem (by simp), he]

theorem memchrNlAux_spec_some (buf : List Nat) (start left p : Nat)
    (h1 : start ≤ p) (h2 : p < start + left) (h3 : buf.getD p 0 = 10)
    (h4 : ∀ i, start ≤ i → i < p → buf.getD i 0 ≠ 10) :
    memchrNlAux buf start left = some p := by
  induction left generalizing start with
  | zero => omega
  | succ k ih =>
    unfold memchrNlAux
    by_cases hs : buf.getD start 0 = 10
    · rw [if_pos hs]
      have he : start = p := by
        by_contra hne
        exact h4 start (Nat.le_refl _) (by omega) hs
      rw [he]
    · rw [if_neg hs]
      have hne : start ≠ p := fun he => hs (he ▸ h3)
      exact ih (start + 1) (by omega) (by omega)
        (fun i hi1 hi2 => h4 i (by omega) hi2)

theorem memchrNl_spec_some (buf : List Nat) (start stop p : Nat)
    (h1 : start ≤ p) (h2 : p < stop) (h3 : buf.getD p 0 = 10)
    (h4 : ∀ i, start ≤ i → i < p → buf.getD i 0 ≠ 10) :
    memchrNl buf start stop = some p :=
  memchrNlAux_spec_some buf start (stop - start) p h1 (by omega) h3 h4

theorem memchrNlAux_spec_none (buf : List Nat) (start left : Nat)
    (h : ∀ i, start ≤ i → i < start + left → buf.getD i 0 ≠ 10) :
    memchrNlAux buf start left = none := by
  induction left generalizing start with
  | zero => rfl
  | succ k ih =>
    unfold memchrNlAux
    rw [if_neg (h start (Nat.le_refl _) (by omega))]
    exact ih (start + 1) (fun i hi1 hi2 => h i (by omega) (by omega))

theorem memchrNl_spec_none (buf : List Nat) (start stop : Nat)
    (h : ∀ i, start ≤ i → i < stop → buf.getD i 0 ≠ 10) :
    memchrNl buf start stop = none :=
  memchrNlAux_spec_none buf start (stop - start)
    (fun i hi1 hi2 => h i hi1 (by omega))

theorem getD_seg (X seg Y : List Nat) (i j : Nat) (h : i = X.length + j)
    (hj : j < seg.length) : ((X ++ seg) ++ Y).getD i 0 = seg.getD j 0 := by
  subst h
  rw [List.getD_append _ _ _ _ (by simp; omega),
    List.getD_append_right _ _ _ _ (by simp)]
  congr 1
  simp

theorem getD_end_seg (X seg : List Nat) (i j : Nat) (h : i = X.length + j)
    (hj : j < seg.length) : (X ++ seg).getD i 0 = seg.getD j 0 := by
  subst h
  rw [List.getD_append_right _ _ _ _ (by simp)]
  congr 1
  simp

theorem take_drop_seg (X seg Y : List Nat) (start len : Nat)
    (hs : start = X.length) (hl : len = seg.length) :
    sliceL ((X ++ seg) ++ Y) start len = seg := by
  subst hs hl
  unfold sliceL
  rw [List.append_assoc, List.drop_left, List.take_left]

/-- Key lemma for the round trip: scanning a buffer that holds exactly one
serialized record (second header `SH`, which is empty or equal to the name)
yields the first-record boolean on the first pass and the record itself
afterwards. -/
theorem scanOnce_loaded (st : FastqIter) (N S Q SH : List Nat)
    (hbuf : st.buf = [64] ++ N ++ [10] ++ S ++ [10] ++ [43] ++ SH ++ [10] ++ Q ++ [10])
    (hrs : st.record_start = 0)
    (hbe : st.bufend =
      ([64] ++ N ++ [10] ++ S ++ [10] ++ [43] ++ SH ++ [10] ++ Q ++ [10]).length)
    (hsb : st.save_as_bytes = false)
    (hSH : SH = [] ∨ SH = N)
    (hN10 : ¬(10 : Nat) ∈ N) (hN13 : ¬(13 : Nat) ∈ N)
    (hS10 : ¬(10 : Nat) ∈ S) (hQ10 : ¬(10 : Nat) ∈ Q)
    (hS13 : S.getLast? ≠ some 13) (hQ13 : Q.getLast? ≠ some 13)
    (hlen : Q.length = S.length)
    (hascii : ∀ b ∈ N ++ (S ++ Q), b < 128) :
    scanOnce st =
      if st.number_of_records = 0 ∧ st.yielded_two_headers = false then
        .yieldBool (!SH.isEmpty) { st with yielded_two_headers := true }
      else
        .yieldRecord N S Q
          { st with
            number_of_records := st.number_of_records + 1,
            record_start :=
              ([64] ++ N ++ [10] ++ S ++ [10] ++ [43] ++ SH ++ [10] ++ Q ++ [10]).length } := by
  set W : List Nat :=
    [64] ++ N ++ [10] ++ S ++ [10] ++ [43] ++ SH ++ [10] ++ Q ++ [10] with hW
  have hSH10 : ¬(10 : Nat) ∈ SH := by
    rcases hSH with h | h
    · rw [h]; simp
    · rw [h]; exact hN10
  have hSH13 : ¬(13 : Nat) ∈ SH := by
    rcases hSH with h | h
    · rw [h]; simp
    · rw [h]; exact hN13
  have hLW : W.length =
      N.length + 1 + 1 + S.length + 1 + 1 + SH.length + 1 + Q.length + 1 := by
    rw [hW]
    simp only [List.length_append, List.length_cons, List.length_nil]
    omega
  have assoc0 : W = [64] ++ (N ++ [10] ++ S ++ [10] ++ [43] ++ SH ++ [10] ++ Q ++ [10]) := by
    rw [hW]; simp [List.append_assoc]
  have assoc1 : W = ([64] ++ N) ++ [10] ++ (S ++ [10] ++ [43] ++ SH ++ [10] ++ Q ++ [10]) := by
    rw [hW]; simp [List.append_assoc]
  have assocN : W = [64] ++ N ++ ([10] ++ S ++ [10] ++ [43] ++ SH ++ [10] ++ Q ++ [10]) := by
    rw [hW]; simp [List.append_assoc]
  have assocS : W = ([64] ++ N ++ [10]) ++ S ++ ([10] ++ [43] ++ SH ++ [10] ++ Q ++ [10]) := by
    rw [hW]; simp [List.append_assoc]
  have assoc2 : W = ([64] ++ N ++ [10] ++ S) ++ [10] ++ ([43] ++ SH ++ [10] ++ Q ++ [10]) := by
    rw [hW]; simp [List.append_assoc]
  have assoc43 : W = ([64] ++ N ++ [10] ++ S ++ [10]) ++ [43] ++ (SH ++ [10] ++ Q ++ [10]) := by
    rw [hW]; simp [List.append_assoc]
  have assocSH : W = ([64] ++ N ++ [10] ++ S ++ [10] ++ [43]) ++ SH ++ ([10] ++ Q ++ [10]) := by
    rw [hW]; simp [List.append_assoc]
  have assoc3 : W = ([64] ++ N ++ [10] ++ S ++ [10] ++ [43] ++ SH) ++ [10] ++ (Q ++ [10]) := by
    rw [hW]; simp [List.append_assoc]
  have h64 : W.getD 0 0 = 64 := by
    rw [assoc0, List.getD_append _ _ _ _ (by simp)]
    rfl
  have hg1 : W.getD (N.length + 1) 0 = 10 := by
    rw [assoc1, getD_seg ([64] ++ N) [10] _ (N.length + 1) 0
      (by simp only [List.length_append, List.length_cons, List.length_nil]; omega)
      (by simp)]
    rfl
  have hno1 : ∀ i, i < N.length + 1 → W.getD i 0 ≠ 10 := by
    intro i hi
    rw [assoc1,
      List.getD_append _ _ _ _
        (by simp only [List.length_append, List.length_cons, List.length_nil]; omega),
      List.getD_append _ _ _ _
        (by simp only [List.length_append, List.length_cons, List.length_nil]; omega)]
    exact getD_ne_of_not_mem ([64] ++ N) 10 i 0 (by simp [hN10]) (by decide)
  have hg2 : W.getD (N.length + 1 + 1 + S.length) 0 = 10 := by
    rw [assoc2, getD_seg ([64] ++ N ++ [10] ++ S) [10] _ (N.length + 1 + 1 + S.length) 0
      (by simp only [List.length_append, List.length_cons, List.length_nil]; omega)
      (by simp)]
    rfl
  have hno2 : ∀ i, N.length + 1 + 1 ≤ i → i < N.length + 1 + 1 + S.length →
      W.getD i 0 ≠ 10 := by
    intro i h1 h2
    rw [assoc2,
      List.getD_append _ _ _ _
        (by simp only [List.length_append, List.length_cons, List.length_nil]; omega),
      List.getD_append _ _ _ _
        (by simp only [List.length_append, List.length_cons, List.length_nil]; omega),
      List.getD_append_right _ _ _ _
        (by simp only [List.length_append, List.length_cons, List.length_nil]; omega)]
    exact getD_ne_of_not_mem S 10 _ 0 hS10 (by decide)
  have h43 : W.getD (N.length + 1 + 1 + S.length + 1) 0 = 43 := by
    rw [assoc43, getD_seg ([64] ++ N ++ [10] ++ S ++ [10]) [43] _
      (N.length + 1 + 1 + S.length + 1) 0
      (by simp only [List.length_append, List.length_cons, List.length_nil]; omega)
      (by simp)]
    rfl
  have hg3 : W.getD (N.length + 1 + 1 + S.length + 1 + 1 + SH.length) 0 = 10 := by
    rw [assoc3, getD_seg ([64] ++ N ++ [10] ++ S ++ [10] ++ [43] ++ SH) [10] _
      (N.length + 1 + 1 + S.length + 1 + 1 + SH.length) 0
      (by simp only [List.length_append, List.length_cons, List.length_nil]; omega)
      (by simp)]
    rfl
  have hno3 : ∀ i, N.length + 1 + 1 + S.length + 1 ≤ i →
      i < N.length + 1 + 1 + S.length + 1 + 1 + SH.length → W.getD i 0 ≠ 10 := by
    intro i h1 h2
    rw [assoc3,
      List.getD_append _ _ _ _
        (by simp only [List.length_append, List.length_cons, List.length_nil]; omega),
      List.getD_append _ _ _ _
        (by simp only [List.length_append, List.length_cons, List.length_nil]; omega)]
    by_cases h43i : i = N.length + 1 + 1 + S.length + 1
    · rw [getD_seg ([64] ++ N ++ [10] ++ S ++ [10]) [43] SH i 0
        (by simp only [List.length_append, List.length_cons, List.length_nil]; omega)
        (by simp)]
      decide
    · rw [List.getD_append_right _ _ _ _
        (by simp only [List.length_append, List.length_cons, List.length_nil]; omega)]
      exact getD_ne_of_not_mem SH 10 _ 0 hSH10 (by decide)
  have hg4 : W.getD (N.length + 1 + 1 + S.length + 1 + 1 + SH.length + 1 + Q.length) 0
      = 10 := by
    rw [hW, getD_end_seg ([64] ++ N ++ [10] ++ S ++ [10] ++ [43] ++ SH ++ [10] ++ Q) [10]
      (N.length + 1 + 1 + S.length + 1 + 1 + SH.length + 1 + Q.length) 0
      (by simp only [List.length_append, List.length_cons, List.length_nil]; omega)
      (by simp)]
    rfl
  have hno4 : ∀ i, N.length + 1 + 1 + S.length + 1 + 1 + SH.length + 1 ≤ i →
      i < N.length + 1 + 1 + S.length + 1 + 1 + SH.length + 1 + Q.length →
      W.getD i 0 ≠ 10 := by
    intro i h1 h2
    rw [hW,
      List.getD_append _ _ _ _
        (by simp only [List.length_append, List.length_cons, List.length_nil]; omega),
      List.getD_append_right _ _ _ _
        (by simp only [List.length_append, List.length_cons, List.length_nil]; omega)]
    exact getD_ne_of_not_mem Q 10 _ 0 hQ10 (by decide)
  have mem1 : memchrNl W 0 W.length = some (N.length + 1) :=
    memchrNl_spec_some W 0 W.length (N.length + 1) (Nat.zero_le _)
      (by omega) hg1 (fun i _ hi => hno1 i hi)
  have mem2 : memchrNl W (N.length + 1 + 1) W.length =
      some (N.length + 1 + 1 + S.length) :=
    memchrNl_spec_some W (N.length + 1 + 1) W.length (N.length + 1 + 1 + S.length)
      (by omega) (by omega) hg2 (fun i hi1 hi2 => hno2 i hi1 hi2)
  have mem3 : memchrNl W (N.length + 1 + 1 + S.length + 1) W.length =
      some (N.length + 1 + 1 + S.length + 1 + 1 + SH.length) :=
    memchrNl_spec_some W (N.length + 1 + 1 + S.length + 1) W.length
      (N.length + 1 + 1 + S.length + 1 + 1 + SH.length)
      (by omega) (by omega) hg3 (fun i hi1 hi2 => hno3 i hi1 hi2)
  have mem4 : memchrNl W (N.length + 1 + 1 + S.length + 1 + 1 + SH.length + 1) W.length =
      some (N.length + 1 + 1 + S.length + 1 + 1 + SH.length + 1 + Q.length) :=
    memchrNl_spec_some W (N.length + 1 + 1 + S.length + 1 + 1 + SH.length + 1) W.length
      (N.length + 1 + 1 + S.length + 1 + 1 + SH.length + 1 + Q.length)
      (by omega) (by omega) hg4 (fun i hi1 hi2 => hno4 i hi1 hi2)
  have hcr1 : ¬(W.getD N.length 0 = 13) := by
    rw [assoc1,
      List.getD_append _ _ _ _
        (by simp only [List.length_append, List.length_cons, List.length_nil]; omega),
      List.getD_append _ _ _ _
        (by simp only [List.length_append, List.length_cons, List.length_nil]; omega)]
    by_cases hNe : N.length = 0
    · rw [List.length_eq_zero.mp hNe]
      decide
    · rw [List.getD_append_right _ _ _ _ (by simp only [List.length_cons, List.length_nil]; omega)]
      exact getD_ne_of_not_mem N 13 _ 0 hN13 (by decide)
  have hcr2 : ¬(W.getD (N.length + 1 + 1 + S.length - 1) 0 = 13) := by
    by_cases hSe : S.length = 0
    · have e : N.length + 1 + 1 + S.length - 1 = N.length + 1 := by omega
      rw [e, hg1]
      decide
    · have e : N.length + 1 + 1 + S.length - 1 =
          ([64] ++ N ++ [10]).length + (S.length - 1) := by
        simp only [List.length_append, List.length_cons, List.length_nil]
        omega
      rw [assocS, getD_seg _ S _ _ (S.length - 1) e (by omega)]
      exact getD_last_ne S 13 hS13 (by decide)
  have hcr3 : ¬(W.getD (N.length + 1 + 1 + S.length + 1 + 1 + SH.length - 1) 0 = 13) := by
    by_cases hEe : SH.length = 0
    · have e : N.length + 1 + 1 + S.length + 1 + 1 + SH.length - 1 =
          N.length + 1 + 1 + S.length + 1 := by omega
      rw [e, h43]
      decide
    · have e : N.length + 1 + 1 + S.length + 1 + 1 + SH.length - 1 =
          ([64] ++ N ++ [10] ++ S ++ [10] ++ [43]).length + (SH.length - 1) := by
        simp only [List.length_append, List.length_cons, List.length_nil]
        omega
      rw [assocSH, getD_seg _ SH _ _ (SH.length - 1) e (by omega)]
      exact getD_ne_of_not_mem SH 13 _ 0 hSH13 (by decide)
  have hcr4 : ¬(W.getD
      (N.length + 1 + 1 + S.length + 1 + 1 + SH.length + 1 + Q.length - 1) 0 = 13) := by
    by_cases hQe : Q.length = 0
    · have e : N.length + 1 + 1 + S.length + 1 + 1 + SH.length + 1 + Q.length - 1 =
          N.length + 1 + 1 + S.length + 1 + 1 + SH.length := by omega
      rw [e, hg3]
      decide
    · have e : N.length + 1 + 1 + S.length + 1 + 1 + SH.length + 1 + Q.length - 1 =
          ([64] ++ N ++ [10] ++ S ++ [10] ++ [43] ++ SH ++ [10]).length +
            (Q.length - 1) := by
        simp only [List.length_append, List.length_cons, List.length_nil]
        omega
      rw [hW, getD_seg _ Q [10] _ (Q.length - 1) e (by omega)]
      exact getD_last_ne Q 13 hQ13 (by decide)
  have nameslice : sliceL W 1 N.length = N := by
    rw [assocN]
    exact take_drop_seg [64] N _ 1 N.length (by simp) rfl
  have seqslice : sliceL W (N.length + 1 + 1) S.length = S := by
    rw [assocS]
    exact take_drop_seg ([64] ++ N ++ [10]) S _ (N.length + 1 + 1) S.length
      (by simp only [List.length_append, List.length_cons, List.length_nil]; omega) rfl
  have shslice : sliceL W (N.length + 1 + 1 + S.length + 1 + 1) SH.length = SH := by
    rw [assocSH]
    exact take_drop_seg ([64] ++ N ++ [10] ++ S ++ [10] ++ [43]) SH _
      (N.length + 1 + 1 + S.length + 1 + 1) SH.length
      (by simp only [List.length_append, List.length_cons, List.length_nil]; omega) rfl
  have qualslice : sliceL W (N.length + 1 + 1 + S.length + 1 + 1 + SH.length + 1)
      Q.length = Q := by
    rw [hW]
    exact take_drop_seg ([64] ++ N ++ [10] ++ S ++ [10] ++ [43] ++ SH ++ [10]) Q [10]
      (N.length + 1 + 1 + S.length + 1 + 1 + SH.length + 1) Q.length
      (by simp only [List.length_append, List.length_cons, List.length_nil]; omega) rfl
  have hWall : ∀ b ∈ W, b < 128 := by
    intro b hb
    have hN' : ∀ x ∈ N, x < 128 := fun x hx => hascii x (by simp [hx])
    have hS' : ∀ x ∈ S, x < 128 := fun x hx => hascii x (by simp [hx])
    have hQ' : ∀ x ∈ Q, x < 128 := fun x hx => hascii x (by simp [hx])
    have hSH' : ∀ x ∈ SH, x < 128 := by
      rcases hSH with h | h
      · rw [h]; simp
      · rw [h]; exact hN'
    rw [hW] at hb
    simp only [List.mem_append, List.mem_singleton] at hb
    rcases hb with (((((((((hb | hb) | hb) | hb) | hb) | hb) | hb) | hb) | hb) | hb) <;>
      first
        | omega
        | exact hN' b hb
        | exact hS' b hb
        | exact hQ' b hb
        | exact hSH' b hb
  have hasciiW : string_is_ascii W 0
      (N.length + 1 + 1 + S.length + 1 + 1 + SH.length + 1 + Q.length) = true := by
    unfold string_is_ascii sliceL
    rw [List.all_eq_true]
    intro b hb
    rw [List.drop_zero] at hb
    simp only [decide_eq_true_eq]
    exact hWall b (List.take_subset _ _ hb)
  have hBool : ((SH.length != 0) : Bool) = !SH.isEmpty := by
    cases SH <;> simp
  have hshcond : ¬(SH.length ≠ 0 ∧
      (N.length ≠ SH.length ∨
        sliceL W (N.length + 1 + 1 + S.length + 1 + 1) SH.length ≠
          sliceL W 1 SH.length)) := by
    rcases hSH with h | h
    · rw [h]
      simp
    · rw [h] at shslice ⊢
      rw [shslice, nameslice]
      simp
  unfold scanOnce
  rw [hrs, hbe, hbuf]
  rw [mem1]
  simp only []
  rw [mem2]
  simp only []
  rw [mem3]
  simp only []
  rw [mem4]
  simp only []
  rw [if_neg (show ¬(W.getD 0 0 ≠ 64) from fun hc => hc h64)]
  rw [if_neg (show ¬(W.getD (N.length + 1 + 1 + S.length + 1) 0 ≠ 43) from
    fun hc => hc h43)]
  simp only [Nat.zero_add, Nat.sub_zero, Nat.add_sub_cancel_left, Nat.add_sub_cancel]
  rw [if_neg hcr1, if_neg hcr2, if_neg hcr3, if_neg hcr4]
  rw [if_neg hshcond]
  rw [if_neg (show ¬(Q.length ≠ S.length) by simp [hlen])]
  by_cases hP : st.number_of_records = 0 ∧ st.yielded_two_headers = false
  · rw [if_pos hP, if_pos hP, hBool]
  · rw [if_neg hP, if_neg hP]
    rw [if_neg (show ¬(st.save_as_bytes = true) by simp [hsb])]
    rw [if_pos hasciiW]
    rw [nameslice, seqslice, qualslice, hLW]

/-- A scan over an empty range requests more data. -/
theorem scanOnce_empty (s : FastqIter) (h : s.record_start = s.bufend) :
    scanOnce s = .needMore := by
  unfold scanOnce
  rw [show memchrNl s.buf s.record_start s.bufend = none by
    unfold memchrNl
    rw [h, Nat.sub_self]
    rfl]

/-- The first fill of a fresh parser whose buffer capacity equals the
stream length reads the whole stream. -/
theorem readIntoBuffer_start (input : List Nat) (sb : Bool) (nor : Nat)
    (en y2 : Bool) (hpos : 0 < input.length) :
    readIntoBuffer ⟨input.length, List.replicate input.length 0, input, sb,
        nor, en, y2, false, 0, 0⟩ =
      .ok ⟨input.length, input, [], sb, nor, en, y2, false, input.length, 0⟩ := by
  have hne : input.length ≠ 0 := by omega
  unfold readIntoBuffer
  simp [sliceL, hne, Ne.symm hne]

/-- A fill invoked when the whole buffer content has been consumed and the
stream is exhausted sets the end-of-file flag. -/
theorem readIntoBuffer_exhausted (bs : Nat) (buf : List Nat) (sb : Bool)
    (nor : Nat) (en y2 : Bool) (be : Nat)
    (hpos : 0 < be) (hle : be ≤ buf.length) :
    readIntoBuffer ⟨bs, buf, [], sb, nor, en, y2, false, be, be⟩ =
      .ok ⟨bs, buf, [], sb, nor, en, y2, true, 0, 0⟩ := by
  have hbe0 : be ≠ 0 := by omega
  have hlen0 : 0 < buf.length := by omega
  unfold readIntoBuffer
  simp [sliceL, hbe0, hlen0, Nat.lt_irrefl]

/-- Driving a fresh parser over one well-formed wire record (second header
either empty or equal to the name) yields the two-headers boolean, the
record, and then `StopIteration`. -/
theorem roundtrip_drive (N S Q SH : List Nat)
    (hSH : SH = [] ∨ SH = N)
    (hN10 : ¬(10 : Nat) ∈ N) (hN13 : ¬(13 : Nat) ∈ N)
    (hS10 : ¬(10 : Nat) ∈ S) (hQ10 : ¬(10 : Nat) ∈ Q)
    (hS13 : S.getLast? ≠ some 13) (hQ13 : Q.getLast? ≠ some 13)
    (hlen : Q.length = S.length)
    (hascii : ∀ b ∈ N ++ (S ++ Q), b < 128) :
    drive 4 3 (mkIter
        ([64] ++ N ++ [10] ++ S ++ [10] ++ [43] ++ SH ++ [10] ++ Q ++ [10])
        ([64] ++ N ++ [10] ++ S ++ [10] ++ [43] ++ SH ++ [10] ++ Q ++ [10]).length
        false) =
      [.bool (!SH.isEmpty), .record N S Q, .stop] := by
  set W : List Nat :=
    [64] ++ N ++ [10] ++ S ++ [10] ++ [43] ++ SH ++ [10] ++ Q ++ [10] with hW
  have hWpos : 0 < W.length := by rw [hW]; simp
  have h0 : scanOnce ⟨W.length, List.replicate W.length 0, W,
      false, 0, false, false, false, 0, 0⟩ = .needMore :=
    scanOnce_empty _ rfl
  have h1 : readIntoBuffer ⟨W.length, List.replicate W.length 0, W,
      false, 0, false, false, false, 0, 0⟩ =
      .ok ⟨W.length, W, [], false, 0, false, false, false, W.length, 0⟩ :=
    readIntoBuffer_start W false 0 false false hWpos
  have h2 : scanOnce ⟨W.length, W, [], false, 0, false, false, false,
      W.length, 0⟩ =
      .yieldBool (!SH.isEmpty)
        ⟨W.length, W, [], false, 0, false, true, false, W.length, 0⟩ := by
    rw [scanOnce_loaded ⟨W.length, W, [], false, 0, false, false, false,
      W.length, 0⟩ N S Q SH hW rfl (congrArg List.length hW) rfl hSH
      hN10 hN13 hS10 hQ10 hS13 hQ13 hlen hascii]
    rfl
  have h4 : scanOnce ⟨W.length, W, [], false, 0, false, true, false,
      W.length, 0⟩ =
      .yieldRecord N S Q
        ⟨W.length, W, [], false, 1, false, true, false, W.length, W.length⟩ := by
    rw [scanOnce_loaded ⟨W.length, W, [], false, 0, false, true, false,
      W.length, 0⟩ N S Q SH hW rfl (congrArg List.length hW) rfl hSH
      hN10 hN13 hS10 hQ10 hS13 hQ13 hlen hascii]
    rw [if_neg (show ¬((0 : Nat) = 0 ∧ true = false) by simp)]
  have h3 : scanOnce ⟨W.length, W, [], false, 1, false, true, false,
      W.length, W.length⟩ = .needMore :=
    scanOnce_empty _ rfl
  have h5 : readIntoBuffer ⟨W.length, W, [], false, 1, false, true, false,
      W.length, W.length⟩ =
      .ok ⟨W.length, W, [], false, 1, false, true, true, 0, 0⟩ :=
    readIntoBuffer_exhausted W.length W false 1 false true W.length hWpos
      (Nat.le_refl _)
  have n1 : nextFQ 4 (mkIter W W.length false) =
      .yieldBool (!SH.isEmpty)
        ⟨W.length, W, [], false, 0, false, true, false, W.length, 0⟩ := by
    rw [show mkIter W W.length false = ⟨W.length, List.replicate W.length 0,
      W, false, 0, false, false, false, 0, 0⟩ from rfl]
    rw [nextFQ]
    rw [if_neg (show ¬(FastqIter.eof ⟨W.length, List.replicate W.length 0, W,
      false, 0, false, false, false, 0, 0⟩ = true) from Bool.false_ne_true)]
    rw [h0]
    simp only []
    rw [h1]
    simp only []
    rw [nextFQ]
    rw [if_neg (show ¬(FastqIter.eof ⟨W.length, W, [], false, 0, false, false,
      false, W.length, 0⟩ = true) from Bool.false_ne_true)]
    rw [h2]
  have n2 : nextFQ 4 ⟨W.length, W, [], false, 0, false, true, false,
      W.length, 0⟩ =
      .yieldRecord N S Q
        ⟨W.length, W, [], false, 1, false, true, false, W.length, W.length⟩ := by
    rw [nextFQ]
    rw [if_neg (show ¬(FastqIter.eof ⟨W.length, W, [], false, 0, false, true,
      false, W.length, 0⟩ = true) from Bool.false_ne_true)]
    rw [h4]
  have n3 : nextFQ 4 ⟨W.length, W, [], false, 1, false, true, false,
      W.length, W.length⟩ = .stopIteration := by
    rw [nextFQ]
    rw [if_neg (show ¬(FastqIter.eof ⟨W.length, W, [], false, 1, false, true,
      false, W.length, W.length⟩ = true) from Bool.false_ne_true)]
    rw [h3]
    simp only []
    rw [h5]
    simp only []
    rw [nextFQ]
    rw [if_pos (show FastqIter.eof ⟨W.length, W, [], false, 1, false, true,
      true, 0, 0⟩ = true from rfl)]
  rw [drive, n1]
  simp only []
  rw [drive, n2]
  simp only []
  rw [drive, n3]

/-- C1 (amended): for every record whose name, sequence and qualities are
ASCII, contain no newline byte, whose sequence and qualities do not end in a
carriage return, and whose qualities have the sequence's length, parsing the
output of `create_fastq_record(name, sequence, qualities, two_headers)`
yields the first-record boolean, then a single record equal to the input,
then `StopIteration` — for both values of `two_headers`. -/
theorem fastq_roundtrip (N S Q : List Nat) (th : Bool)
    (hN10 : ¬(10 : Nat) ∈ N) (hN13 : ¬(13 : Nat) ∈ N)
    (hS10 : ¬(10 : Nat) ∈ S) (hQ10 : ¬(10 : Nat) ∈ Q)
    (hS13 : S.getLast? ≠ some 13) (hQ13 : Q.getLast? ≠ some 13)
    (hlen : Q.length = S.length)
    (hascii : ∀ b ∈ N ++ (S ++ Q), b < 128) :
    drive 4 3 (mkIter (create_fastq_record N S Q th)
        (create_fastq_record N S Q th).length false) =
      [.bool (th && !N.isEmpty), .record N S Q, .stop] := by
  rw [create_fastq_record_eq_wire]
  cases th
  · have h := roundtrip_drive N S Q [] (Or.inl rfl) hN10 hN13 hS10 hQ10
      hS13 hQ13 hlen hascii
    simpa [fastqWire] using h
  · have h := roundtrip_drive N S Q N (Or.inr rfl) hN10 hN13 hS10 hQ10
      hS13 hQ13 hlen hascii
    simpa [fastqWire] using h

/-- Witness for C1 at the record `name="r"`, `sequence="A"`,
`qualities="I"`, `two_headers=true`. -/
theorem fastq_roundtrip_witness :
    drive 4 3 (mkIter (create_fastq_record [114] [65] [73] true)
        (create_fastq_record [114] [65] [73] true).length false) =
      [.bool (true && !([114] : List Nat).isEmpty),
        .record [114] [65] [73], .stop] :=
  fastq_roundtrip [114] [65] [73] true (by decide) (by decide) (by decide)
    (by decide) (by decide) (by decide) (by decide) (by decide)

/-- C1 counterexample to the unrestricted claim: the record
`name="r"`, `sequence="\x0d"`, `qualities="\x0d"` is accepted by the
`Sequence` constructor, but parsing its serialization yields a record whose
sequence and qualities are empty — the trailing carriage returns are
stripped by the parser, so the round-trip is not the identity. -/
theorem roundtrip_counterexample :
    Sequence.init [114] [13] (some [13]) = .ok ⟨[114], [13], some [13]⟩ ∧
    drive 4 3 (mkIter (create_fastq_record [114] [13] [13] false)
        (create_fastq_record [114] [13] [13] false).length false) =
      [.bool false, .record [114] [] [], .stop] ∧
    OutItem.record [114] [] [] ≠ OutItem.record [114] [13] [13] :=
  ⟨rfl, by decide, by decide⟩

end Dnaio
